import Mathlib

/-!
Verification of the EVM-RealTimeChat-Server core: a shallow embedding of the
nonce-challenge authentication handler, the presence (session) registry, the
direct-message relay and the chat-room membership tracker, together with proofs
of the specified properties.

JavaScript `Map`s are modelled as association lists (`List (String × α)`) with
`List.lookup`, insertion appending at the end (JS insertion order) and update /
delete acting on existing bindings.  JavaScript `Set`s of strings are modelled
as lists in insertion order.  `String.prototype.toLowerCase` and the JS string
comparison `<=` are modelled character-wise (`toLowerStr`, `strLe`).  The
cryptographic primitives `ethers.getAddress` and `ethers.verifyTypedData` are
consumed as trusted external functions and are therefore parameters of the
connection handler: `getAddress` normalizes an address or fails, and
`verifyTypedData` recovers a signing address from a typed-data payload and a
signature or fails (a `catch` in the source).
-/

namespace EvmChat

/-- Character-wise model of `String.prototype.toLowerCase()`. -/
def toLowerStr (s : String) : String := ⟨s.data.map Char.toLower⟩

/-- Lexicographic comparison of character lists, as JS compares strings. -/
def charListLe : List Char → List Char → Bool
  | [], _ => true
  | _ :: _, [] => false
  | a :: as, b :: bs => if a < b then true else if b < a then false else charListLe as bs

/-- Model of the JS string comparison `s <= t` (used on ISO-8601 timestamps). -/
def strLe (s t : String) : Bool := charListLe s.data t.data

/-- JS falsiness of an optional string field: `undefined` and `""` are falsy. -/
def strFalsy (o : Option String) : Bool :=
  match o with
  | none => true
  | some s => s == ""

/-- `Map.prototype.set` on an existing key: replace the bound value in place. -/
def setKey {α : Type} (k : String) (v : α) (m : List (String × α)) : List (String × α) :=
  m.map (fun p => if p.1 = k then (k, v) else p)

/-- `Map.prototype.delete`: remove the binding of `k`. -/
def eraseKey {α : Type} (k : String) (m : List (String × α)) : List (String × α) :=
  m.filter (fun p => p.1 ≠ k)

/-- `Array.from(map.keys())` in insertion order. -/
def keys {α : Type} (m : List (String × α)) : List String := m.map (·.1)

/-- `Set.prototype.add`: append if absent (JS sets keep insertion order). -/
def addElem (s : List String) (x : String) : List String :=
  if x ∈ s then s else s ++ [x]

/-! ## The data model of `src/unnamed/part_000` -/

/-- The fixed SIWE statement text baked into the server. -/
def SIWE_STATEMENT : String := "Sign in to EVM RealTimeChat"

/-- The fixed SIWE version baked into the server. -/
def SIWE_VERSION : String := "1"

/-- The application name used as the typed-data domain name. -/
def APP_NAME : String := "EVM RealTimeChat"

/-- A stored nonce challenge (`NonceChallenge` in the source). -/
structure NonceChallenge where
  address : String
  chainId : Nat
  domain : String
  uri : String
  issuedAt : String
  expirationTime : String
  consumed : Bool
deriving DecidableEq, Repr

/-- The typed-data domain separator passed to `ethers.verifyTypedData`. -/
structure TypedDomain where
  name : String
  version : String
  chainId : Nat
deriving DecidableEq, Repr

/-- The `SignIn` message passed to `ethers.verifyTypedData`. -/
structure SignInMessage where
  domain : String
  address : String
  statement : String
  uri : String
  version : String
  chainId : Nat
  nonce : String
  issuedAt : String
  expirationTime : String
deriving DecidableEq, Repr

/-- The `socket.handshake.auth` payload, with every client-suppliable field of
the declared shape (`address`, `signature`, `typedData.domain.*`,
`typedData.message.*`). -/
structure AuthPayload where
  address : Option String
  signature : Option String
  tdDomainName : Option String
  tdDomainVersion : Option String
  tdDomainChainId : Option Nat
  msgNonce : Option String
  msgChainId : Option Nat
  msgIssuedAt : Option String
  msgExpirationTime : Option String
deriving DecidableEq, Repr

/-- The mutable server state touched by the connection handler:
`nonceChallenges` and `addressToSockets`. -/
structure ServerState where
  nonceChallenges : List (String × NonceChallenge)
  addressToSockets : List (String × List String)
deriving DecidableEq, Repr

/-- Outcome of the connection handler: either `socket.disconnect(true)` on some
failed check, or an authenticated connection carrying the bound address, the
`isFirstConnection` presence-online broadcast flag, and the users listed in the
`presence:snapshot` emitted to the new socket. -/
inductive AuthResult where
  | disconnected
  | authenticated (address : String) (onlineBroadcast : Bool) (snapshotUsers : List String)
deriving DecidableEq, Repr

/-- The typed-data domain separator the server reconstructs from the stored
challenge (source lines 200–204). -/
def buildDomain (ch : NonceChallenge) : TypedDomain :=
  { name := APP_NAME, version := SIWE_VERSION, chainId := ch.chainId }

/-- The `SignIn` message the server reconstructs from the stored challenge and
the presented nonce (source lines 206–216). -/
def buildMessage (nonce : String) (ch : NonceChallenge) : SignInMessage :=
  { domain := ch.domain
    address := ch.address
    statement := SIWE_STATEMENT
    uri := ch.uri
    version := SIWE_VERSION
    chainId := ch.chainId
    nonce := nonce
    issuedAt := ch.issuedAt
    expirationTime := ch.expirationTime }

/-- Presence registration (source lines 234–247): add the socket to the
address's set, creating it if absent; the returned flag is
`isFirstConnection`, which gates the single `presence:online` broadcast. -/
def register (address sid : String) (m : List (String × List String)) :
    List (String × List String) × Bool :=
  match List.lookup address m with
  | none => (m ++ [(address, [sid])], true)
  | some socks => (setKey address (addElem socks sid) m, false)

/-- Presence deregistration (the `disconnect` handler, source lines 283–294):
remove the socket from the address's set; when the set becomes empty the map
entry is deleted and the returned flag (the single `presence:offline`
broadcast) is true. -/
def deregister (address sid : String) (m : List (String × List String)) :
    List (String × List String) × Bool :=
  match List.lookup address m with
  | none => (m, false)
  | some socks =>
    let socks2 := socks.filter (fun x => x ≠ sid)
    if socks2.isEmpty then (eraseKey address m, true)
    else (setKey address socks2 m, false)

/-- The connection handler of `src/unnamed/part_000` (lines 154–255) on the
three fields it reads from the handshake payload.  Checks run in source order:
missing/empty fields, address normalization, nonce lookup, consumed flag,
expiry (deleting the expired entry), challenge-bound address match, typed-data
signature recovery, recovered-address match; then the challenge is marked
consumed and the connection is registered. -/
def handleConnAux (getAddress : String → Option String)
    (verifyTypedData : TypedDomain → SignInMessage → String → Option String)
    (now sid : String) (addrOpt sigOpt nonceOpt : Option String)
    (st : ServerState) : ServerState × AuthResult :=
  if strFalsy addrOpt || strFalsy sigOpt || strFalsy nonceOpt then (st, .disconnected)
  else
    let signature := sigOpt.getD ""
    let nonce := nonceOpt.getD ""
    match getAddress (addrOpt.getD "") with
    | none => (st, .disconnected)
    | some checksummed =>
      let address := toLowerStr checksummed
      match List.lookup nonce st.nonceChallenges with
      | none => (st, .disconnected)
      | some challenge =>
        if challenge.consumed then (st, .disconnected)
        else if strLe challenge.expirationTime now then
          ({ st with nonceChallenges := eraseKey nonce st.nonceChallenges }, .disconnected)
        else if challenge.address ≠ address then (st, .disconnected)
        else
          match verifyTypedData (buildDomain challenge) (buildMessage nonce challenge)
              signature with
          | none => (st, .disconnected)
          | some recovered =>
            if toLowerStr recovered ≠ address then (st, .disconnected)
            else
              let reg := register address sid st.addressToSockets
              ({ nonceChallenges :=
                   setKey nonce { challenge with consumed := true } st.nonceChallenges
                 addressToSockets := reg.1 },
               .authenticated address reg.2 (keys reg.1))

/-- The connection handler applied to a handshake payload: the source reads
exactly `authPayload.address`, `authPayload.signature` and
`authPayload.typedData?.message?.nonce` from the payload. -/
def handleConnection (getAddress : String → Option String)
    (verifyTypedData : TypedDomain → SignInMessage → String → Option String)
    (now sid : String) (p : AuthPayload) (st : ServerState) : ServerState × AuthResult :=
  handleConnAux getAddress verifyTypedData now sid p.address p.signature p.msgNonce st

/-- A relayed direct message `{from, to, body, ts}`. -/
structure DmMessage where
  msgFrom : String
  msgTo : String
  body : String
  ts : Nat
deriving DecidableEq, Repr

/-- The `dm:send` handler: emissions it produces, as `(socketId, message)`
pairs in order — one per socket registered for the lowercased recipient,
followed by the echo to the sender's own socket.  `if (!to || !body) return`
drops falsy (missing or empty) fields. -/
def dmSend (fromAddr senderSid : String) (toOpt bodyOpt : Option String) (ts : Nat)
    (m : List (String × List String)) : List (String × DmMessage) :=
  if strFalsy toOpt || strFalsy bodyOpt then []
  else
    let toAddr := toOpt.getD ""
    let msg : DmMessage := ⟨fromAddr, toAddr, bodyOpt.getD "", ts⟩
    let recip := (List.lookup (toLowerStr toAddr) m).getD []
    recip.map (fun sid2 => (sid2, msg)) ++ [(senderSid, msg)]

/-! ## The chat-room tracker of `src/src/index.ts` -/

/-- The `join_chat` handler (lines 103–118): get-or-create the member set, add
the address, and return the updated map together with the `CHAT ACTIVE` signal
(emitted when the size crosses from below 2 to 2 or more). -/
def joinChat (chatId address : String) (rooms : List (String × List String)) :
    List (String × List String) × Bool :=
  match List.lookup chatId rooms with
  | none =>
    let members2 := addElem [] address
    (rooms ++ [(chatId, members2)], decide (0 < 2 ∧ 2 ≤ members2.length))
  | some members =>
    let members2 := addElem members address
    (setKey chatId members2 rooms,
     decide (members.length < 2 ∧ 2 ≤ members2.length))

/-- The `leaveChat` helper (lines 155–167): delete the address from the room's
member set (a no-op when absent), then delete the whole room entry and emit
`CHAT INACTIVE` (the returned flag) whenever the remaining size is below 2. -/
def leaveChat (chatId address : String) (rooms : List (String × List String)) :
    List (String × List String) × Bool :=
  match List.lookup chatId rooms with
  | none => (rooms, false)
  | some members =>
    let members2 := members.filter (fun x => x ≠ address)
    if members2.length < 2 then (eraseKey chatId rooms, true)
    else (setKey chatId members2 rooms, false)

/-- The room sweep inside the `disconnect` handler (lines 142–148): for every
room, if deleting the address succeeds, delete the room entry and log
`CHAT INACTIVE` when the remaining size is below 2; rooms not containing the
address are untouched.  Returns the surviving rooms and the inactive logs. -/
def roomSweep (address : String) :
    List (String × List String) → List (String × List String) × List String
  | [] => ([], [])
  | (cid, members) :: rest =>
    let swept := roomSweep address rest
    if address ∈ members then
      let members2 := members.filter (fun x => x ≠ address)
      if members2.length < 2 then (swept.1, cid :: swept.2)
      else ((cid, members2) :: swept.1, swept.2)
    else ((cid, members) :: swept.1, swept.2)

/-- The full `disconnect` handler of `src/src/index.ts` (lines 130–149):
presence deregistration followed — unless the address had no presence entry,
in which case the handler returns early — by the room sweep.  Returns the new
presence map, the `presence:offline` flag, the new room map and the
`CHAT INACTIVE` logs. -/
def disconnectHandler (address sid : String) (reg : List (String × List String))
    (rooms : List (String × List String)) :
    (List (String × List String)) × Bool × (List (String × List String)) × List String :=
  match List.lookup address reg with
  | none => (reg, false, rooms, [])
  | some socks =>
    let socks2 := socks.filter (fun x => x ≠ sid)
    let pres :=
      if socks2.isEmpty then (eraseKey address reg, true)
      else (setKey address socks2 reg, false)
    let swept := roomSweep address rooms
    (pres.1, pres.2, swept.1, swept.2)

/-- No entry of the presence map holds an empty socket set. -/
def RegistryInv (m : List (String × List String)) : Prop := ∀ p ∈ m, p.2 ≠ []

/-- States of the presence map reachable from the empty map through
registrations and deregistrations. -/
inductive Reachable : List (String × List String) → Prop
  | empty : Reachable []
  | registerStep (a s : String) {m : List (String × List String)} :
      Reachable m → Reachable (register a s m).1
  | deregisterStep (a s : String) {m : List (String × List String)} :
      Reachable m → Reachable (deregister a s m).1

/-- A sequence of registrations of distinct sockets for one identity, counting
the `presence:online` broadcasts fired along the way. -/
def registerRun (a : String) (sids : List String) (m : List (String × List String)) :
    List (String × List String) × Nat :=
  match sids with
  | [] => (m, 0)
  | s :: rest =>
    let r := register a s m
    let rr := registerRun a rest r.1
    (rr.1, (if r.2 then 1 else 0) + rr.2)

/-! ## Concrete fixtures used to instantiate the general theorems -/

/-- A trivial address normalizer: accept every raw address as already
checksummed. -/
def gId : String → Option String := fun s => some s

/-- A signature verifier that recovers the fixed address `0xAa` for every
payload. -/
def vAA : TypedDomain → SignInMessage → String → Option String := fun _ _ _ => some "0xAa"

/-- A stored challenge bound to `0xaa`, expiring at time `t5`. -/
def chA : NonceChallenge :=
  { address := "0xaa", chainId := 1, domain := "localhost", uri := "http://localhost:5173"
    issuedAt := "t0", expirationTime := "t5", consumed := false }

/-- A server state holding the single pending challenge `n1`. -/
def stA : ServerState := { nonceChallenges := [("n1", chA)], addressToSockets := [] }

/-- A well-formed handshake payload for `0xAa` presenting nonce `n1`. -/
def pA : AuthPayload :=
  { address := some "0xAa", signature := some "sig", tdDomainName := none
    tdDomainVersion := none, tdDomainChainId := none, msgNonce := some "n1"
    msgChainId := none, msgIssuedAt := none, msgExpirationTime := none }

/-- The same address, signature and nonce as `pA` but with every other
client-supplied typed-data field altered. -/
def pB : AuthPayload :=
  { address := some "0xAa", signature := some "sig", tdDomainName := some "EVIL"
    tdDomainVersion := some "99", tdDomainChainId := some 999, msgNonce := some "n1"
    msgChainId := some 999, msgIssuedAt := some "t9", msgExpirationTime := some "t9" }

/-- A handshake payload with no fields at all. -/
def pEmpty : AuthPayload :=
  { address := none, signature := none, tdDomainName := none
    tdDomainVersion := none, tdDomainChainId := none, msgNonce := none
    msgChainId := none, msgIssuedAt := none, msgExpirationTime := none }

/-! ## Association-list lemmas -/

theorem lookup_cons_eq {β : Type} (k k1 : String) (v1 : β) (t : List (String × β)) :
    List.lookup k ((k1, v1) :: t) = if k = k1 then some v1 else List.lookup k t := by
  rw [List.lookup]
  by_cases h : k = k1
  · simp [h]
  · rw [if_neg h, beq_false_of_ne h]

theorem lookup_mem {β : Type} {k : String} {v : β} {m : List (String × β)}
    (h : List.lookup k m = some v) : (k, v) ∈ m := by
  induction m with
  | nil => simp [List.lookup] at h
  | cons p t ih =>
    obtain ⟨k1, v1⟩ := p
    rw [lookup_cons_eq] at h
    by_cases hk : k = k1
    · rw [if_pos hk] at h
      cases h
      subst hk
      exact List.mem_cons_self _ _
    · rw [if_neg hk] at h
      exact List.mem_cons_of_mem _ (ih h)

theorem lookup_setKey_self {α : Type} (k : String) (v : α) (m : List (String × α)) :
    List.lookup k (setKey k v m) = (List.lookup k m).map (fun _ => v) := by
  induction m with
  | nil => rfl
  | cons p t ih =>
    obtain ⟨k1, v1⟩ := p
    by_cases h : k1 = k
    · subst h
      simp [setKey, lookup_cons_eq]
    · have h2 : ¬ k = k1 := fun hh => h hh.symm
      simpa [setKey, lookup_cons_eq, h, h2] using ih

theorem lookup_setKey_ne {α : Type} {k k2 : String} (v : α) (m : List (String × α))
    (h : k2 ≠ k) : List.lookup k2 (setKey k v m) = List.lookup k2 m := by
  induction m with
  | nil => rfl
  | cons p t ih =>
    obtain ⟨k1, v1⟩ := p
    by_cases h1 : k1 = k
    · subst h1
      simpa [setKey, lookup_cons_eq, h] using ih
    · by_cases hk : k2 = k1
      · simp [setKey, lookup_cons_eq, h1, hk]
      · simpa [setKey, lookup_cons_eq, h1, hk] using ih

theorem lookup_eraseKey_self {α : Type} (k : String) (m : List (String × α)) :
    List.lookup k (eraseKey k m) = none := by
  induction m with
  | nil => rfl
  | cons p t ih =>
    obtain ⟨k1, v1⟩ := p
    by_cases h : k1 = k
    · subst h
      simpa [eraseKey] using ih
    · have h2 : ¬ k = k1 := fun hh => h hh.symm
      simpa [eraseKey, lookup_cons_eq, h, h2] using ih

theorem lookup_eraseKey_ne {α : Type} {k k2 : String} (m : List (String × α))
    (h : k2 ≠ k) : List.lookup k2 (eraseKey k m) = List.lookup k2 m := by
  induction m with
  | nil => rfl
  | cons p t ih =>
    obtain ⟨k1, v1⟩ := p
    by_cases h1 : k1 = k
    · subst h1
      simpa [eraseKey, lookup_cons_eq, h] using ih
    · by_cases hk : k2 = k1
      · simp [eraseKey, lookup_cons_eq, h1, hk]
      · simpa [eraseKey, lookup_cons_eq, h1, hk] using ih

theorem lookup_eraseKey_some {α : Type} {k k2 : String} {v : α} {m : List (String × α)}
    (h : List.lookup k2 (eraseKey k m) = some v) : List.lookup k2 m = some v := by
  by_cases hk : k2 = k
  · subst hk
    rw [lookup_eraseKey_self] at h
    cases h
  · rwa [lookup_eraseKey_ne m hk] at h

theorem lookup_append_of_none {α : Type} {k : String} {m m2 : List (String × α)}
    (h : List.lookup k m = none) : List.lookup k (m ++ m2) = List.lookup k m2 := by
  induction m with
  | nil => rfl
  | cons p t ih =>
    obtain ⟨k1, v1⟩ := p
    rw [lookup_cons_eq] at h
    rw [List.cons_append, lookup_cons_eq]
    by_cases hk : k = k1
    · rw [if_pos hk] at h
      cases h
    · rw [if_neg hk] at h
      rw [if_neg hk]
      exact ih h

theorem lookup_append_singleton_ne {α : Type} {k k2 : String} (v : α)
    (m : List (String × α)) (h : k2 ≠ k) :
    List.lookup k2 (m ++ [(k, v)]) = List.lookup k2 m := by
  induction m with
  | nil => simpa [List.lookup] using (lookup_cons_eq k2 k v []).trans (if_neg h)
  | cons p t ih =>
    obtain ⟨k1, v1⟩ := p
    rw [List.cons_append, lookup_cons_eq, lookup_cons_eq]
    by_cases hk : k2 = k1
    · rw [if_pos hk, if_pos hk]
    · rw [if_neg hk, if_neg hk]
      exact ih

/-! ## Session-registry lemmas -/

theorem addElem_ne_nil (s : List String) (x : String) : addElem s x ≠ [] := by
  unfold addElem
  by_cases h : x ∈ s
  · rw [if_pos h]
    rintro rfl
    cases h
  · rw [if_neg h]
    simp

theorem mem_setKey {α : Type} {k : String} {v : α} {m : List (String × α)}
    {p : String × α} (h : p ∈ setKey k v m) : p = (k, v) ∨ p ∈ m := by
  unfold setKey at h
  obtain ⟨q, hq, hfq⟩ := List.mem_map.mp h
  by_cases hc : q.1 = k
  · rw [if_pos hc] at hfq
    exact Or.inl hfq.symm
  · rw [if_neg hc] at hfq
    exact Or.inr (hfq ▸ hq)

theorem register_inv {a s : String} {m : List (String × List String)}
    (h : RegistryInv m) : RegistryInv (register a s m).1 := by
  unfold register
  cases hl : List.lookup a m with
  | none =>
    intro p hp
    rcases List.mem_append.mp hp with hp1 | hp1
    · exact h p hp1
    · rcases List.mem_singleton.mp hp1 with rfl
      simp
  | some socks =>
    intro p hp
    rcases mem_setKey hp with rfl | hp1
    · exact addElem_ne_nil socks s
    · exact h p hp1

theorem deregister_inv {a s : String} {m : List (String × List String)}
    (h : RegistryInv m) : RegistryInv (deregister a s m).1 := by
  unfold deregister
  cases hl : List.lookup a m with
  | none => exact h
  | some socks =>
    dsimp only
    by_cases he : (socks.filter (fun x => x ≠ s)).isEmpty
    · rw [if_pos he]
      intro p hp
      exact h p (List.mem_of_mem_filter hp)
    · rw [if_neg he]
      intro p hp
      rcases mem_setKey hp with rfl | hp1
      · simpa [List.isEmpty_iff] using he
      · exact h p hp1

theorem reachable_inv {m : List (String × List String)} (h : Reachable m) :
    RegistryInv m := by
  induction h with
  | empty => intro p hp; cases hp
  | registerStep a s _ ih => exact register_inv ih
  | deregisterStep a s _ ih => exact deregister_inv ih

theorem register_snd_iff (a s : String) (m : List (String × List String)) :
    (register a s m).2 = true ↔ List.lookup a m = none := by
  unfold register
  cases hl : List.lookup a m with
  | none => simp
  | some socks => simp

theorem register_lookup_self (a s : String) (m : List (String × List String)) :
    (List.lookup a (register a s m).1).isSome := by
  unfold register
  cases hl : List.lookup a m with
  | none => simp [lookup_append_of_none hl, lookup_cons_eq]
  | some socks => simp [lookup_setKey_self, hl]

theorem register_lookup_ne {a b s : String} (m : List (String × List String))
    (h : b ≠ a) : List.lookup b (register a s m).1 = List.lookup b m := by
  unfold register
  cases hl : List.lookup a m with
  | none => exact lookup_append_singleton_ne _ m h
  | some socks => exact lookup_setKey_ne _ m h

theorem deregister_snd_iff (a s : String) (m : List (String × List String)) :
    (deregister a s m).2 = true ↔
      ∃ socks, List.lookup a m = some socks ∧ socks.filter (fun x => x ≠ s) = [] := by
  unfold deregister
  cases hl : List.lookup a m with
  | none => simp
  | some socks =>
    dsimp only
    by_cases he : (socks.filter (fun x => x ≠ s)).isEmpty
    · rw [if_pos he]
      simp only [List.isEmpty_iff] at he
      constructor
      · intro _
        exact ⟨socks, rfl, he⟩
      · intro _
        rfl
    · rw [if_neg he]
      simp only [List.isEmpty_iff] at he
      constructor
      · intro hfalse
        simp at hfalse
      · rintro ⟨socks1, hs1, hf⟩
        injection hs1 with h2
        subst h2
        exact absurd hf he

theorem deregister_true_lookup {a s : String} {m : List (String × List String)}
    (h : (deregister a s m).2 = true) :
    List.lookup a (deregister a s m).1 = none := by
  unfold deregister at h ⊢
  cases hl : List.lookup a m with
  | none => rw [hl] at h; cases h
  | some socks =>
    rw [hl] at h
    dsimp only at h ⊢
    by_cases he : (socks.filter (fun x => x ≠ s)).isEmpty
    · rw [if_pos he]
      exact lookup_eraseKey_self a m
    · rw [if_neg he] at h
      simp at h

theorem deregister_lookup_ne {a b s : String} (m : List (String × List String))
    (h : b ≠ a) : List.lookup b (deregister a s m).1 = List.lookup b m := by
  unfold deregister
  cases hl : List.lookup a m with
  | none => rfl
  | some socks =>
    dsimp only
    by_cases he : (socks.filter (fun x => x ≠ s)).isEmpty
    · rw [if_pos he]
      exact lookup_eraseKey_ne m h
    · rw [if_neg he]
      exact lookup_setKey_ne _ m h

theorem registerRun_zero {a : String} {m : List (String × List String)}
    (h : (List.lookup a m).isSome) (sids : List String) :
    (registerRun a sids m).2 = 0 := by
  induction sids generalizing m with
  | nil => rfl
  | cons s rest ih =>
    unfold registerRun
    dsimp only
    have hfalse : (register a s m).2 = false := by
      cases hr : (register a s m).2 with
      | false => rfl
      | true =>
        rw [register_snd_iff] at hr
        rw [hr] at h
        cases h
    rw [hfalse]
    simpa using ih (register_lookup_self a s m)

theorem registerRun_one {a : String} {m : List (String × List String)}
    (h : List.lookup a m = none) {sids : List String} (hne : sids ≠ []) :
    (registerRun a sids m).2 = 1 := by
  cases sids with
  | nil => exact absurd rfl hne
  | cons s rest =>
    unfold registerRun
    dsimp only
    have htrue : (register a s m).2 = true := (register_snd_iff a s m).mpr h
    rw [htrue]
    simpa using registerRun_zero (register_lookup_self a s m) rest

/-! ## Connection-handler lemmas -/

theorem strFalsy_false {o : Option String} (h : strFalsy o = false) :
    ∃ s, o = some s ∧ s ≠ "" := by
  cases o with
  | none => simp [strFalsy] at h
  | some s =>
    refine ⟨s, rfl, ?_⟩
    simpa [strFalsy] using h

/-- Full inversion of a successful authentication: every guard of the handler
passed, and the resulting state marks the challenge consumed and registers the
socket. -/
theorem handleConnAux_authenticated
    {g : String → Option String} {v : TypedDomain → SignInMessage → String → Option String}
    {now sid : String} {ao so no : Option String} {st : ServerState}
    {st2 : ServerState} {a : String} {f : Bool} {snap : List String}
    (h : handleConnAux g v now sid ao so no st = (st2, .authenticated a f snap)) :
    ∃ nonce ch raw checksummed sigstr r,
      no = some nonce ∧ ao = some raw ∧ so = some sigstr ∧
      g raw = some checksummed ∧ toLowerStr checksummed = a ∧
      List.lookup nonce st.nonceChallenges = some ch ∧
      ch.consumed = false ∧
      strLe ch.expirationTime now = false ∧
      ch.address = a ∧
      v (buildDomain ch) (buildMessage nonce ch) sigstr = some r ∧
      toLowerStr r = a ∧
      st2 = { nonceChallenges := setKey nonce { ch with consumed := true } st.nonceChallenges
              addressToSockets := (register a sid st.addressToSockets).1 } ∧
      f = (register a sid st.addressToSockets).2 ∧
      snap = keys (register a sid st.addressToSockets).1 := by
  unfold handleConnAux at h
  by_cases hfb : (strFalsy ao || strFalsy so || strFalsy no) = true
  · rw [if_pos hfb] at h
    simp at h
  · rw [if_neg hfb] at h
    dsimp only at h
    simp only [Bool.or_eq_true, not_or, Bool.not_eq_true] at hfb
    obtain ⟨⟨hfa, hfs⟩, hfn⟩ := hfb
    obtain ⟨raw, hao, _⟩ := strFalsy_false hfa
    obtain ⟨sigstr, hso, _⟩ := strFalsy_false hfs
    obtain ⟨nonce, hno, _⟩ := strFalsy_false hfn
    rw [hao, hso, hno] at h
    simp only [Option.getD_some] at h
    cases hg : g raw with
    | none =>
      rw [hg] at h
      simp at h
    | some checksummed =>
      rw [hg] at h
      dsimp only at h
      cases hch : List.lookup nonce st.nonceChallenges with
      | none =>
        rw [hch] at h
        simp at h
      | some ch =>
        rw [hch] at h
        dsimp only at h
        by_cases hcons : ch.consumed = true
        · rw [if_pos hcons] at h
          simp at h
        · rw [if_neg hcons] at h
          by_cases hexp : strLe ch.expirationTime now = true
          · rw [if_pos hexp] at h
            simp at h
          · rw [if_neg hexp] at h
            by_cases haddr : ch.address ≠ toLowerStr checksummed
            · rw [if_pos haddr] at h
              simp at h
            · rw [if_neg haddr] at h
              cases hv : v (buildDomain ch) (buildMessage nonce ch) sigstr with
              | none =>
                rw [hv] at h
                simp at h
              | some r =>
                rw [hv] at h
                dsimp only at h
                by_cases hrec : toLowerStr r ≠ toLowerStr checksummed
                · rw [if_pos hrec] at h
                  simp at h
                · rw [if_neg hrec] at h
                  rw [Prod.mk.injEq] at h
                  obtain ⟨hst2, hres⟩ := h
                  injection hres with ha hfe hsnap
                  subst ha
                  have hcons2 : ch.consumed = false := by simpa using hcons
                  have hexp2 : strLe ch.expirationTime now = false := by simpa using hexp
                  exact ⟨nonce, ch, raw, checksummed, sigstr, r, hno, hao, hso, hg, rfl, hch,
                    hcons2, hexp2, not_not.mp haddr, hv, not_not.mp hrec, hst2.symm,
                    hfe.symm, hsnap.symm⟩

/-- Every run of the connection handler either authenticates, returns the
state unchanged, or deletes exactly one expired unconsumed challenge. -/
theorem handleConnAux_cases (g : String → Option String)
    (v : TypedDomain → SignInMessage → String → Option String)
    (now sid : String) (ao so no : Option String) (st : ServerState) :
    (∃ st2 a f snap,
      handleConnAux g v now sid ao so no st = (st2, .authenticated a f snap)) ∨
    handleConnAux g v now sid ao so no st = (st, .disconnected) ∨
    (∃ nonce ch, no = some nonce ∧ List.lookup nonce st.nonceChallenges = some ch ∧
      ch.consumed = false ∧ strLe ch.expirationTime now = true ∧
      handleConnAux g v now sid ao so no st =
        ({ st with nonceChallenges := eraseKey nonce st.nonceChallenges },
         .disconnected)) := by
  unfold handleConnAux
  by_cases hfb : (strFalsy ao || strFalsy so || strFalsy no) = true
  · rw [if_pos hfb]
    exact Or.inr (Or.inl rfl)
  · rw [if_neg hfb]
    dsimp only
    have hfb2 := hfb
    simp only [Bool.or_eq_true, not_or, Bool.not_eq_true] at hfb2
    obtain ⟨⟨hfa, hfs⟩, hfn⟩ := hfb2
    obtain ⟨nonce, hno, _⟩ := strFalsy_false hfn
    rw [hno]
    simp only [Option.getD_some]
    cases hg : g (ao.getD "") with
    | none => exact Or.inr (Or.inl rfl)
    | some checksummed =>
      dsimp only
      cases hch : List.lookup nonce st.nonceChallenges with
      | none => exact Or.inr (Or.inl rfl)
      | some ch =>
        dsimp only
        by_cases hcons : ch.consumed = true
        · rw [if_pos hcons]
          exact Or.inr (Or.inl rfl)
        · rw [if_neg hcons]
          have hcons2 : ch.consumed = false := by simpa using hcons
          by_cases hexp : strLe ch.expirationTime now = true
          · rw [if_pos hexp]
            exact Or.inr (Or.inr ⟨nonce, ch, rfl, hch, hcons2, hexp, rfl⟩)
          · rw [if_neg hexp]
            by_cases haddr : ch.address ≠ toLowerStr checksummed
            · rw [if_pos haddr]
              exact Or.inr (Or.inl rfl)
            · rw [if_neg haddr]
              cases hv : v (buildDomain ch) (buildMessage nonce ch) (so.getD "") with
              | none => exact Or.inr (Or.inl rfl)
              | some r =>
                dsimp only
                by_cases hrec : toLowerStr r ≠ toLowerStr checksummed
                · rw [if_pos hrec]
                  exact Or.inr (Or.inl rfl)
                · rw [if_neg hrec]
                  exact Or.inl ⟨_, _, _, _, rfl⟩

/-- A failed connection attempt never touches the presence registry, and
leaves the challenge store unchanged except for possibly deleting one expired
unconsumed entry. -/
theorem handleConnAux_disconnected_state
    {g : String → Option String} {v : TypedDomain → SignInMessage → String → Option String}
    {now sid : String} {ao so no : Option String} {st : ServerState}
    (h : (handleConnAux g v now sid ao so no st).2 = .disconnected) :
    (handleConnAux g v now sid ao so no st).1.addressToSockets = st.addressToSockets ∧
    ((handleConnAux g v now sid ao so no st).1.nonceChallenges = st.nonceChallenges ∨
      ∃ nonce ch, no = some nonce ∧ List.lookup nonce st.nonceChallenges = some ch ∧
        ch.consumed = false ∧ strLe ch.expirationTime now = true ∧
        (handleConnAux g v now sid ao so no st).1.nonceChallenges =
          eraseKey nonce st.nonceChallenges) := by
  rcases handleConnAux_cases g v now sid ao so no st with
    ⟨st2, a, f, snap, heq⟩ | heq | ⟨nonce, ch, hno, hch, hcons, hexp, heq⟩
  · rw [heq] at h
    simp at h
  · rw [heq]
    exact ⟨rfl, Or.inl rfl⟩
  · rw [heq]
    exact ⟨rfl, Or.inr ⟨nonce, ch, hno, hch, hcons, hexp, rfl⟩⟩

/-- A challenge whose `consumed` flag is set survives any handler run
untouched. -/
theorem handleConnAux_consumed_persists
    {g : String → Option String} {v : TypedDomain → SignInMessage → String → Option String}
    {now sid : String} {ao so no : Option String} {st : ServerState}
    {n : String} {c : NonceChallenge}
    (hch : List.lookup n st.nonceChallenges = some c) (hcons : c.consumed = true) :
    List.lookup n (handleConnAux g v now sid ao so no st).1.nonceChallenges = some c := by
  rcases handleConnAux_cases g v now sid ao so no st with
    ⟨st2, a, f, snap, heq⟩ | heq | ⟨nonce, ch, hno, hch2, hcons2, hexp, heq⟩
  · obtain ⟨nonce, ch, raw, checksummed, sigstr, r, hno, hao, hso, hg, hlow, hch2, hcons2,
      hexp, haddr, hv, hrec, hst2, hf, hsnap⟩ := handleConnAux_authenticated heq
    rw [heq, hst2]
    dsimp only
    by_cases hne : n = nonce
    · subst hne
      rw [hch] at hch2
      injection hch2 with hcc
      rw [← hcc] at hcons2
      rw [hcons] at hcons2
      cases hcons2
    · rw [lookup_setKey_ne _ _ hne]
      exact hch
  · rw [heq]
    exact hch
  · rw [heq]
    dsimp only
    by_cases hne : n = nonce
    · subst hne
      rw [hch] at hch2
      injection hch2 with hcc
      rw [← hcc] at hcons2
      rw [hcons] at hcons2
      cases hcons2
    · rw [lookup_eraseKey_ne _ hne]
      exact hch

/-- A connection attempt presenting an already-consumed nonce is closed. -/
theorem handleConnAux_consumed_disconnected
    {g : String → Option String} {v : TypedDomain → SignInMessage → String → Option String}
    {now sid : String} {ao so no : Option String} {st : ServerState}
    {nonce : String} {ch : NonceChallenge}
    (hno : no = some nonce)
    (hch : List.lookup nonce st.nonceChallenges = some ch)
    (hcons : ch.consumed = true) :
    (handleConnAux g v now sid ao so no st).2 = .disconnected := by
  unfold handleConnAux
  by_cases hfb : (strFalsy ao || strFalsy so || strFalsy no) = true
  · rw [if_pos hfb]
  · rw [if_neg hfb]
    dsimp only
    subst hno
    simp only [Option.getD_some]
    cases hg : g (ao.getD "") with
    | none => rfl
    | some checksummed =>
      dsimp only
      rw [hch]
      dsimp only
      rw [if_pos hcons]

/-- A run that reaches the expiry check with an expired challenge deletes the
entry and disconnects, whatever the signature verifier would have said. -/
theorem handleConnAux_expired
    {g : String → Option String} {v : TypedDomain → SignInMessage → String → Option String}
    {now sid raw sigstr nonce : String} {st : ServerState}
    {checksummed : String} {ch : NonceChallenge}
    (hraw : raw ≠ "") (hsig : sigstr ≠ "") (hn : nonce ≠ "")
    (hg : g raw = some checksummed)
    (hch : List.lookup nonce st.nonceChallenges = some ch)
    (hcons : ch.consumed = false)
    (hexp : strLe ch.expirationTime now = true) :
    handleConnAux g v now sid (some raw) (some sigstr) (some nonce) st =
      ({ st with nonceChallenges := eraseKey nonce st.nonceChallenges },
       .disconnected) := by
  unfold handleConnAux
  have h1 : strFalsy (some raw) = false := by simp [strFalsy, hraw]
  have h2 : strFalsy (some sigstr) = false := by simp [strFalsy, hsig]
  have h3 : strFalsy (some nonce) = false := by simp [strFalsy, hn]
  rw [h1, h2, h3]
  simp only [Bool.or_self, Bool.or_false, if_false, Option.getD_some]
  rw [hg]
  dsimp only
  rw [hch]
  dsimp only
  rw [hcons]
  rw [if_pos hexp]
  simp

/-! ## Claim theorems -/

/-- C1: a connection is authenticated only if the address recovered by the
signature verifier from the message reconstructed out of the stored challenge
equals — after lowercasing — both the claimed (normalized) identity and the
challenge-bound identity; on any failure the connection is closed and the
session registry is left untouched. -/
theorem c1_authenticated_only_on_identity_match
    (g : String → Option String) (v : TypedDomain → SignInMessage → String → Option String)
    (now sid : String) (p : AuthPayload) (st : ServerState) :
    (∀ st2 a f snap, handleConnection g v now sid p st = (st2, .authenticated a f snap) →
      ∃ nonce ch raw checksummed sigstr r,
        p.msgNonce = some nonce ∧ p.address = some raw ∧ p.signature = some sigstr ∧
        g raw = some checksummed ∧ toLowerStr checksummed = a ∧
        List.lookup nonce st.nonceChallenges = some ch ∧
        ch.address = a ∧
        v (buildDomain ch) (buildMessage nonce ch) sigstr = some r ∧
        toLowerStr r = a) ∧
    ((handleConnection g v now sid p st).2 = .disconnected →
      (handleConnection g v now sid p st).1.addressToSockets = st.addressToSockets) := by
  constructor
  · intro st2 a f snap h
    unfold handleConnection at h
    obtain ⟨nonce, ch, raw, checksummed, sigstr, r, hno, hao, hso, hg, hlow, hch, _, _, haddr,
      hv, hrec, _, _, _⟩ := handleConnAux_authenticated h
    exact ⟨nonce, ch, raw, checksummed, sigstr, r, hno, hao, hso, hg, hlow, hch, haddr, hv, hrec⟩
  · intro h
    unfold handleConnection at h ⊢
    exact (handleConnAux_disconnected_state h).1

/-- Witness for C1: the attempt with an empty handshake payload is closed and
registers nothing. -/
theorem c1_witness :
    (handleConnection gId vAA "t1" "s1" pEmpty stA).1.addressToSockets =
      stA.addressToSockets :=
  (c1_authenticated_only_on_identity_match gId vAA "t1" "s1" pEmpty stA).2 (by decide)

/-- C2: a successful authentication marks its challenge consumed; the consumed
entry survives every later handler run unchanged, and any connection attempt
presenting a nonce whose stored challenge is consumed is closed. -/
theorem c2_nonce_redeemed_at_most_once
    (g : String → Option String) (v : TypedDomain → SignInMessage → String → Option String)
    (now sid : String) (p : AuthPayload) (st st2 : ServerState)
    (a : String) (f : Bool) (snap : List String)
    (h : handleConnection g v now sid p st = (st2, .authenticated a f snap)) :
    (∃ nonce ch, p.msgNonce = some nonce ∧
      List.lookup nonce st2.nonceChallenges = some ch ∧ ch.consumed = true) ∧
    (∀ (g3 : String → Option String) (v3 : TypedDomain → SignInMessage → String → Option String)
      (now3 sid3 : String) (q : AuthPayload) (st3 : ServerState) (n : String)
      (c : NonceChallenge),
      List.lookup n st3.nonceChallenges = some c → c.consumed = true →
        List.lookup n (handleConnection g3 v3 now3 sid3 q st3).1.nonceChallenges = some c) ∧
    (∀ (g2 : String → Option String) (v2 : TypedDomain → SignInMessage → String → Option String)
      (now2 sid2 : String) (q : AuthPayload) (st3 : ServerState) (n : String)
      (c : NonceChallenge),
      q.msgNonce = some n → List.lookup n st3.nonceChallenges = some c → c.consumed = true →
        (handleConnection g2 v2 now2 sid2 q st3).2 = .disconnected) := by
  refine ⟨?_, ?_, ?_⟩
  · unfold handleConnection at h
    obtain ⟨nonce, ch, raw, checksummed, sigstr, r, hno, hao, hso, hg, hlow, hch, hcons, hexp,
      haddr, hv, hrec, hst2, hf, hsnap⟩ := handleConnAux_authenticated h
    refine ⟨nonce, { ch with consumed := true }, hno, ?_, rfl⟩
    rw [hst2]
    dsimp only
    rw [lookup_setKey_self, hch]
    rfl
  · intro g3 v3 now3 sid3 q st3 n c hc hcons
    exact handleConnAux_consumed_persists hc hcons
  · intro g2 v2 now2 sid2 q st3 n c hn hc hcons
    exact handleConnAux_consumed_disconnected hn hc hcons

/-- Witness for C2: a concrete successful authentication with nonce `n1`,
whose immediate repetition is closed. -/
theorem c2_witness :
    (∃ nonce ch, pA.msgNonce = some nonce ∧
      List.lookup nonce (handleConnection gId vAA "t1" "s1" pA stA).1.nonceChallenges =
        some ch ∧ ch.consumed = true) ∧
    (handleConnection gId vAA "t1" "s2"
      pA (handleConnection gId vAA "t1" "s1" pA stA).1).2 = .disconnected := by
  have h := c2_nonce_redeemed_at_most_once gId vAA "t1" "s1" pA stA
    (handleConnection gId vAA "t1" "s1" pA stA).1 "0xaa" true ["0xaa"] (by decide)
  refine ⟨h.1, ?_⟩
  exact h.2.2 gId vAA "t1" "s2" pA (handleConnection gId vAA "t1" "s1" pA stA).1 "n1"
    { chA with consumed := true } rfl (by decide) rfl

/-- C5: a failed connection attempt never flips a stored challenge's
`consumed` flag — every challenge still stored afterwards was already stored
with that exact value — and the store is completely unchanged except that an
expired unconsumed entry that the attempt touched is deleted. -/
theorem c5_no_consumption_on_failure
    (g : String → Option String) (v : TypedDomain → SignInMessage → String → Option String)
    (now sid : String) (p : AuthPayload) (st : ServerState)
    (h : (handleConnection g v now sid p st).2 = .disconnected) :
    (∀ n c, List.lookup n (handleConnection g v now sid p st).1.nonceChallenges = some c →
      List.lookup n st.nonceChallenges = some c) ∧
    ((handleConnection g v now sid p st).1.nonceChallenges = st.nonceChallenges ∨
      ∃ nonce ch, p.msgNonce = some nonce ∧
        List.lookup nonce st.nonceChallenges = some ch ∧
        ch.consumed = false ∧ strLe ch.expirationTime now = true ∧
        (handleConnection g v now sid p st).1.nonceChallenges =
          eraseKey nonce st.nonceChallenges) := by
  unfold handleConnection at h ⊢
  obtain ⟨hsock, hnonces⟩ := handleConnAux_disconnected_state h
  constructor
  · intro n c hc
    rcases hnonces with heq | ⟨nonce, ch, hno, hch, hcons, hexp, heq⟩
    · rwa [heq] at hc
    · rw [heq] at hc
      exact lookup_eraseKey_some hc
  · exact hnonces

/-- Witness for C5: the attempt presenting an unknown nonce leaves the
challenge `n1` stored unconsumed. -/
theorem c5_witness :
    List.lookup "n1" stA.nonceChallenges = some chA :=
  (c5_no_consumption_on_failure gId vAA "t1" "s1"
      { pA with msgNonce := some "nX" } stA (by decide)).1 "n1" chA (by decide)

/-- C6: the authentication outcome depends only on the claimed address, the
signature and the nonce taken from the handshake payload — the verified
message is rebuilt from the stored challenge and server constants, so altering
any other client-supplied typed-data field changes nothing. -/
theorem c6_message_rebuilt_from_challenge_only
    (g : String → Option String) (v : TypedDomain → SignInMessage → String → Option String)
    (now sid : String) (p1 p2 : AuthPayload) (st : ServerState)
    (ha : p1.address = p2.address) (hs : p1.signature = p2.signature)
    (hn : p1.msgNonce = p2.msgNonce) :
    handleConnection g v now sid p1 st = handleConnection g v now sid p2 st := by
  unfold handleConnection
  rw [ha, hs, hn]

/-- Witness for C6: two payloads differing in every other typed-data field
produce identical outcomes. -/
theorem c6_witness :
    pA ≠ pB ∧
    handleConnection gId vAA "t1" "s1" pA stA = handleConnection gId vAA "t1" "s1" pB stA :=
  ⟨by decide, c6_message_rebuilt_from_challenge_only gId vAA "t1" "s1" pA pB stA rfl rfl rfl⟩

/-- C7: an attempt whose stored challenge has `expirationTime <= now` is
closed even though the nonce exists, is unconsumed and the verifier would
accept, and the expired entry is deleted on that touch. -/
theorem c7_expired_nonce_rejected
    (g : String → Option String) (v : TypedDomain → SignInMessage → String → Option String)
    (now sid raw sigstr nonce checksummed : String) (ch : NonceChallenge)
    (st : ServerState) (p : AuthPayload)
    (hao : p.address = some raw) (hraw : raw ≠ "")
    (hso : p.signature = some sigstr) (hsig : sigstr ≠ "")
    (hno : p.msgNonce = some nonce) (hn : nonce ≠ "")
    (hg : g raw = some checksummed)
    (hch : List.lookup nonce st.nonceChallenges = some ch)
    (hcons : ch.consumed = false)
    (hexp : strLe ch.expirationTime now = true) :
    (handleConnection g v now sid p st).2 = .disconnected ∧
    List.lookup nonce (handleConnection g v now sid p st).1.nonceChallenges = none := by
  unfold handleConnection
  rw [hao, hso, hno]
  rw [handleConnAux_expired hraw hsig hn hg hch hcons hexp]
  exact ⟨rfl, lookup_eraseKey_self nonce st.nonceChallenges⟩

/-- Witness for C7: at time `t6` the challenge expiring at `t5` is rejected
and deleted, although the verifier would have accepted it. -/
theorem c7_witness :
    (handleConnection gId vAA "t6" "s1" pA stA).2 = .disconnected ∧
    List.lookup "n1" (handleConnection gId vAA "t6" "s1" pA stA).1.nonceChallenges = none :=
  c7_expired_nonce_rejected gId vAA "t6" "s1" "0xAa" "sig" "n1" "0xAa" chA stA pA
    rfl (by decide) rfl (by decide) rfl (by decide) rfl (by decide) rfl (by decide)

/-- C3: in every reachable presence-map state no entry holds an empty socket
set (so an identity is online exactly when its set is non-empty); the single
`presence:online` broadcast fires exactly on the transition from absent to
present; the single `presence:offline` broadcast fires exactly when the last
socket is removed, and then the entry is deleted; registering any non-empty
sequence of sockets for a fresh identity broadcasts online exactly once; and
operations on one identity never touch another identity's entry. -/
theorem c3_presence_registry_invariant :
    (∀ m, Reachable m → ∀ k socks, List.lookup k m = some socks → socks ≠ []) ∧
    (∀ a s m, (register a s m).2 = true ↔ List.lookup a m = none) ∧
    (∀ a s m, (deregister a s m).2 = true ↔
      ∃ socks, List.lookup a m = some socks ∧ socks.filter (fun x => x ≠ s) = []) ∧
    (∀ a s m, (deregister a s m).2 = true → List.lookup a (deregister a s m).1 = none) ∧
    (∀ a sids m, List.lookup a m = none → sids ≠ [] → (registerRun a sids m).2 = 1) ∧
    (∀ a b s m, b ≠ a →
      List.lookup b (register a s m).1 = List.lookup b m ∧
      List.lookup b (deregister a s m).1 = List.lookup b m) := by
  refine ⟨?_, ?_, ?_, ?_, ?_, ?_⟩
  · intro m hm k socks hl
    exact reachable_inv hm _ (lookup_mem hl)
  · exact register_snd_iff
  · exact deregister_snd_iff
  · intro a s m h
    exact deregister_true_lookup h
  · intro a sids m h hne
    exact registerRun_one h hne
  · intro a b s m h
    exact ⟨register_lookup_ne m h, deregister_lookup_ne m h⟩

/-- Witness for C3: three registrations for a fresh identity fire exactly one
online broadcast. -/
theorem c3_witness : (registerRun "0xaa" ["s1", "s2", "s3"] []).2 = 1 :=
  c3_presence_registry_invariant.2.2.2.2.1 "0xaa" ["s1", "s2", "s3"] [] rfl (by decide)

/-- C4 (the code violates the claim): the identity `0xaa` has two live
sockets and disconnects one — the presence entry correctly keeps `s2` and no
offline broadcast fires, yet the room sweep still evicts `0xaa` from room
`r`, destroying the room and logging it inactive. -/
theorem c4_disconnect_evicts_rooms_despite_live_connection :
    disconnectHandler "0xaa" "s1" [("0xaa", ["s1", "s2"])] [("r", ["0xaa", "0xbb"])] =
      ([("0xaa", ["s2"])], false, [], ["r"]) := by decide

/-- C8 counterexample: `to` and `body` are both present (not missing), `body`
merely empty, yet the handler emits nothing — not even the sender echo the
claim promises for non-missing fields. -/
theorem c8_counterexample :
    (some "0xbb" : Option String).isSome = true ∧ (some "" : Option String).isSome = true ∧
    dmSend "0xaa" "s1" (some "0xbb") (some "") 7 [("0xbb", ["s2", "s3"])] = [] := by
  refine ⟨rfl, rfl, by decide⟩

/-- C8 (amended): if `to` or `body` is missing or empty the event is silently
ignored with no emission; otherwise the message
`{from := sender, to, body, ts}` is delivered to every connection registered
for the lowercased recipient — just the sender echo when the recipient has no
connections — followed by the echo to the sender's own connection. -/
theorem c8_dm_relay_fanout
    (fromAddr senderSid : String) (toOpt bodyOpt : Option String) (ts : Nat)
    (m : List (String × List String)) :
    ((strFalsy toOpt || strFalsy bodyOpt) = true →
      dmSend fromAddr senderSid toOpt bodyOpt ts m = []) ∧
    (∀ toAddr body, toOpt = some toAddr → bodyOpt = some body →
      (strFalsy toOpt || strFalsy bodyOpt) = false →
      (List.lookup (toLowerStr toAddr) m = none →
        dmSend fromAddr senderSid toOpt bodyOpt ts m =
          [(senderSid, ⟨fromAddr, toAddr, body, ts⟩)]) ∧
      (∀ socks, List.lookup (toLowerStr toAddr) m = some socks →
        dmSend fromAddr senderSid toOpt bodyOpt ts m =
          socks.map (fun sid2 => (sid2, ⟨fromAddr, toAddr, body, ts⟩)) ++
            [(senderSid, ⟨fromAddr, toAddr, body, ts⟩)])) := by
  constructor
  · intro h
    unfold dmSend
    rw [if_pos h]
  · intro toAddr body hto hbody hf
    subst hto
    subst hbody
    constructor
    · intro hl
      unfold dmSend
      rw [if_neg (by simp [hf])]
      dsimp only
      simp only [Option.getD_some]
      rw [hl]
      rfl
    · intro socks hl
      unfold dmSend
      rw [if_neg (by simp [hf])]
      dsimp only
      simp only [Option.getD_some]
      rw [hl]
      rfl

/-- Witness for C8 (amended): a recipient with two registered connections
receives the message on both, and the sender receives the echo. -/
theorem c8_witness :
    dmSend "0xaa" "s1" (some "0xBB") (some "hi") 7 [("0xbb", ["s2", "s3"])] =
      [("s2", ⟨"0xaa", "0xBB", "hi", 7⟩), ("s3", ⟨"0xaa", "0xBB", "hi", 7⟩),
       ("s1", ⟨"0xaa", "0xBB", "hi", 7⟩)] :=
  ((c8_dm_relay_fanout "0xaa" "s1" (some "0xBB") (some "hi") 7
      [("0xbb", ["s2", "s3"])]).2 "0xBB" "hi" rfl rfl (by decide)).2
    ["s2", "s3"] (by decide)

/-- C9: a second join by an identity already in the room changes no member
set and emits nothing; a fresh room's first join emits nothing; for a joiner
not yet a member the `CHAT ACTIVE` signal fires exactly when the room held
exactly one member; hence two distinct identities joining a fresh room
activate it exactly on the second join. -/
theorem c9_join_idempotent_active_once
    (cid a b : String) (rooms : List (String × List String)) :
    (∀ members, List.lookup cid rooms = some members → a ∈ members →
      (∀ c, List.lookup c (joinChat cid a rooms).1 = List.lookup c rooms) ∧
      (joinChat cid a rooms).2 = false) ∧
    (List.lookup cid rooms = none → (joinChat cid a rooms).2 = false) ∧
    (∀ members, List.lookup cid rooms = some members → a ∉ members →
      ((joinChat cid a rooms).2 = true ↔ members.length = 1)) ∧
    (List.lookup cid rooms = none → a ≠ b →
      (joinChat cid a rooms).2 = false ∧
      (joinChat cid b (joinChat cid a rooms).1).2 = true) := by
  refine ⟨?_, ?_, ?_, ?_⟩
  · intro members hl hmem
    unfold joinChat
    rw [hl]
    dsimp only
    have hadd : addElem members a = members := by
      unfold addElem
      rw [if_pos hmem]
    rw [hadd]
    constructor
    · intro c
      by_cases hc : c = cid
      · subst hc
        rw [lookup_setKey_self, hl]
        rfl
      · exact lookup_setKey_ne _ rooms hc
    · simp only [decide_eq_false_iff_not]
      omega
  · intro hl
    unfold joinChat
    rw [hl]
    dsimp only
    simp only [decide_eq_false_iff_not, addElem]
    simp
  · intro members hl hmem
    unfold joinChat
    rw [hl]
    dsimp only
    have hadd : addElem members a = members ++ [a] := by
      unfold addElem
      rw [if_neg hmem]
    rw [hadd]
    simp only [decide_eq_true_eq, List.length_append, List.length_singleton]
    omega
  · intro hl hne
    have h1 : (joinChat cid a rooms).2 = false := by
      unfold joinChat
      rw [hl]
      dsimp only
      simp only [decide_eq_false_iff_not, addElem]
      simp
    refine ⟨h1, ?_⟩
    have h2 : List.lookup cid (joinChat cid a rooms).1 = some (addElem [] a) := by
      unfold joinChat
      rw [hl]
      dsimp only
      rw [lookup_append_of_none hl, lookup_cons_eq, if_pos rfl]
    have ha : addElem [] a = [a] := by
      unfold addElem
      simp
    have h3 : ∀ rooms2 : List (String × List String),
        List.lookup cid rooms2 = some [a] → (joinChat cid b rooms2).2 = true := by
      intro rooms2 hl2
      unfold joinChat
      rw [hl2]
      dsimp only
      have hb : addElem [a] b = [a, b] := by
        unfold addElem
        simp [Ne.symm hne]
      rw [hb]
      simp
    exact h3 _ (ha ▸ h2)

/-- Witness for C9: `0xbb` joining the room that already contains only `0xaa`
fires the active signal. -/
theorem c9_witness :
    (joinChat "r" "0xbb" [("r", ["0xaa"])]).2 = true :=
  ((c9_join_idempotent_active_once "r" "0xbb" "0xcc" [("r", ["0xaa"])]).2.2.1
    ["0xaa"] (by decide) (by decide)).mpr (by decide)

/-- C10: an identity that never was a member of the one-member room `r` issues
`leave_chat` for it: the no-op removal leaves the size below 2, so the room
entry is deleted, `CHAT INACTIVE` fires, and the remaining member is
evicted. -/
theorem c10_nonmember_leave_deletes_room :
    (["0xaa"].contains "0xbb") = false ∧
    leaveChat "r" "0xbb" [("r", ["0xaa"])] = ([], true) := by
  refine ⟨by decide, by decide⟩

end EvmChat
